import Mathlib

/-!
Verification of the Antigravity-AutoAccept repository core: the Session
Client (`src/cdpClient.ts`, class `CDPClient`) and the Action Supervisor
(the CDP-based `AutoAcceptor` with its poll loop and injected action
script).

The TypeScript classes are shallowly embedded as Lean state records with
one function per method.  Asynchronous callbacks (socket close, retry
timer, per-call timeout timer, incoming message) become events of a small
step relation; effects that matter to the claims (which pending calls get
settled, which buttons get clicked, which backoff delays get scheduled)
are returned explicitly or accumulated in the state.
-/

namespace AutoAccept

/-- Options of the `CDPClient` constructor (`CDPClientOptions`). -/
structure CDPClientOptions where
  maxRetries : Nat
  initialRetryDelay : Nat
  maxRetryDelay : Nat
  callTimeout : Nat
  deriving Repr, DecidableEq

/-- `DEFAULT_OPTIONS` from `cdpClient.ts`. -/
def DEFAULT_OPTIONS : CDPClientOptions :=
  { maxRetries := 10, initialRetryDelay := 1000, maxRetryDelay := 30000, callTimeout := 5000 }

/-- State of one `CDPClient` instance (the mutable private fields of the
class).  `ws = none` models `this.ws === null`; `ws = some true` a socket
whose `readyState` is `OPEN`, `ws = some false` a socket in any other
ready state.  `callbacks` is the list of correlation ids with a live
entry in the pending-call map (each live entry has an armed per-call
timeout timer, exactly as in the source, where the timer is cleared
precisely when the entry is deleted).  `retryTimer` models
`this.retryTimer !== null`.  The `fired*` counters count invocations of
the registered lifecycle callbacks, and `delays` accumulates, in order,
every backoff delay passed to `setTimeout` by `scheduleReconnect`. -/
structure CDPClient where
  options : CDPClientOptions
  ws : Option Bool
  messageId : Nat
  callbacks : List Nat
  port : Nat
  retryCount : Nat
  retryTimer : Bool
  intentionalDisconnect : Bool
  isDisposed : Bool
  firedOnDisconnect : Nat
  firedOnReconnect : Nat
  firedOnReconnectFailed : Nat
  delays : List Nat
  deriving Repr, DecidableEq

/-- A freshly constructed `CDPClient` (field initializers of the class). -/
def CDPClient.mk0 (opts : CDPClientOptions) : CDPClient :=
  { options := opts
    ws := none
    messageId := 1
    callbacks := []
    port := 9222
    retryCount := 0
    retryTimer := false
    intentionalDisconnect := false
    isDisposed := false
    firedOnDisconnect := 0
    firedOnReconnect := 0
    firedOnReconnectFailed := 0
    delays := [] }

/-- `get isConnected`: `this.ws !== null && this.ws.readyState === WebSocket.OPEN`. -/
def CDPClient.isConnected (s : CDPClient) : Bool :=
  s.ws = some true

/-- `rejectAllPending(reason)`: rejects every live pending call (clearing
its timer) and empties the map.  Returns the ids settled. -/
def CDPClient.rejectAllPending (s : CDPClient) : CDPClient × List Nat :=
  ({ s with callbacks := [] }, s.callbacks)

/-- `scheduleReconnect()`: no-op under intentional disconnect or
disposal; when `retryCount >= maxRetries` fires `onReconnectFailed` and
schedules nothing; otherwise computes
`min(initialRetryDelay * 2 ^ retryCount, maxRetryDelay)`, increments
`retryCount` and arms the retry timer with that delay. -/
def CDPClient.scheduleReconnect (s : CDPClient) : CDPClient :=
  if s.intentionalDisconnect || s.isDisposed then s
  else if s.options.maxRetries ≤ s.retryCount then
    { s with firedOnReconnectFailed := s.firedOnReconnectFailed + 1 }
  else
    let delay := min (s.options.initialRetryDelay * 2 ^ s.retryCount) s.options.maxRetryDelay
    { s with retryCount := s.retryCount + 1
             retryTimer := true
             delays := s.delays ++ [delay] }

/-- `disconnect()`: guarded by `isDisposed`; sets the
intentional-disconnect flag, clears the retry timer, rejects all pending
calls, and closes/discards the socket.  Returns the settled ids. -/
def CDPClient.disconnect (s : CDPClient) : CDPClient × List Nat :=
  if s.isDisposed then (s, [])
  else
    let s1 := { s with intentionalDisconnect := true, retryTimer := false }
    let (s2, settled) := s1.rejectAllPending
    ({ s2 with ws := none }, settled)

/-- `dispose()`: guarded by `isDisposed`; sets `isDisposed := true` and
then calls `disconnect()` (in that order, exactly as the source does),
then nulls the observer slots (not modelled).  Returns the settled ids. -/
def CDPClient.dispose (s : CDPClient) : CDPClient × List Nat :=
  if s.isDisposed then (s, [])
  else
    let s1 := { s with isDisposed := true }
    s1.disconnect

/-- Result of one `send(method, params)` call. -/
inductive SendRes
  | threw
  | pending (id : Nat)
  | rejectedNow (id : Nat)
  deriving Repr, DecidableEq

/-- `send(method, params)`: throws when disposed, when the method name is
empty, or when the socket is not open.  Otherwise assigns
`id := this.messageId++`, arms the per-call timeout timer, registers the
pending entry, and writes the frame to the socket; a synchronous socket
write failure clears the timer, deletes the entry and rejects the call.
`methodOk` models `method` being a non-empty string and `sendOk` the
socket write succeeding.  Returns (state, ids assigned, ids settled,
call result). -/
def CDPClient.send (s : CDPClient) (methodOk sendOk : Bool) :
    CDPClient × List Nat × List Nat × SendRes :=
  if s.isDisposed then (s, [], [], .threw)
  else if !methodOk then (s, [], [], .threw)
  else if !s.isConnected then (s, [], [], .threw)
  else
    let id := s.messageId
    let s1 := { s with messageId := id + 1, callbacks := s.callbacks ++ [id] }
    if sendOk then (s1, [id], [], .pending id)
    else ({ s1 with callbacks := s1.callbacks.erase id }, [id], [id], .rejectedNow id)

/-- `handleMessage(raw)` for a decoded frame that parsed to an object
with numeric `id` field `id` (`isErr` = the frame carries an `error`
payload): when `id` has a live pending entry its timer is cleared, the
entry is deleted, and the call is resolved or rejected; otherwise the
frame is logged and discarded.  Returns the settled ids. -/
def CDPClient.handleMessage (s : CDPClient) (id : Nat) : CDPClient × List Nat :=
  if id ∈ s.callbacks then
    ({ s with callbacks := s.callbacks.erase id }, [id])
  else (s, [])

/-- The per-call timeout timer of call `id` fires: if the entry is still
live it is deleted and the call rejects with a timeout error. -/
def CDPClient.timeoutFire (s : CDPClient) (id : Nat) : CDPClient × List Nat :=
  if id ∈ s.callbacks then
    ({ s with callbacks := s.callbacks.erase id }, [id])
  else (s, [])

/-- The socket `close` event: `this.ws = null`, all pending calls
rejected, `onDisconnect` fired, and `scheduleReconnect()` unless the
disconnect was intentional or the client is disposed.  A client with no
socket receives no close event.  Returns the settled ids. -/
def CDPClient.wsClose (s : CDPClient) : CDPClient × List Nat :=
  match s.ws with
  | none => (s, [])
  | some _ =>
    let s1 := { s with ws := none }
    let (s2, settled) := s1.rejectAllPending
    let s3 := { s2 with firedOnDisconnect := s2.firedOnDisconnect + 1 }
    if !s3.intentionalDisconnect && !s3.isDisposed then (s3.scheduleReconnect, settled)
    else (s3, settled)

/-- Environment outcome of one `doConnect()` attempt: discovery and
socket creation both succeed and the socket opens; or the discovery
phase fails (HTTP error, empty or unparsable target list, no matching
target, `WebSocket` constructor throw) and the promise rejects; or
discovery succeeds but the created socket fails to open, in which case
its `error` event fires (the handler only logs) followed by its `close`
event. -/
inductive ConnStep
  | success
  | discoveryFail
  | openFail
  deriving Repr, DecidableEq

/-- How one `connect()`/`doConnect()` promise ends up: resolved,
rejected, hung (never settles), or a synchronous throw from the
fail-fast guards in `connect()`. -/
inductive ConnRes
  | resolved
  | rejected
  | hung
  | threw
  deriving Repr, DecidableEq

/-- `doConnect()`: on success the `open` handler resets `retryCount` to 0
and the promise resolves with the socket open.  On a discovery failure
the promise rejects and no socket exists.  On a socket-open failure the
`error` handler only logs; the subsequent `close` event nulls the socket,
rejects all pending calls, fires `onDisconnect`, and calls
`scheduleReconnect()` (the disconnect being neither intentional nor
disposed); the promise itself never settles.  Returns
(state, settled ids, promise fate). -/
def CDPClient.doConnect (s : CDPClient) (oc : ConnStep) :
    CDPClient × List Nat × ConnRes :=
  if s.isDisposed then (s, [], .rejected)
  else
    match oc with
    | .success => ({ s with ws := some true, retryCount := 0 }, [], .resolved)
    | .discoveryFail => (s, [], .rejected)
    | .openFail =>
      let s1 := { s with ws := none }
      let (s2, settled) := s1.rejectAllPending
      let s3 := { s2 with firedOnDisconnect := s2.firedOnDisconnect + 1 }
      if !s3.intentionalDisconnect && !s3.isDisposed then
        (s3.scheduleReconnect, settled, .hung)
      else (s3, settled, .hung)

/-- `connect(port)`: throws synchronously when disposed or when the port
is out of range; otherwise stores the port, clears the
intentional-disconnect flag, resets `retryCount` to 0, and runs one
`doConnect()`. -/
def CDPClient.connect (s : CDPClient) (port : Nat) (oc : ConnStep) :
    CDPClient × List Nat × ConnRes :=
  if s.isDisposed then (s, [], .threw)
  else if port = 0 || 65535 < port then (s, [], .threw)
  else
    let s1 := { s with port := port, intentionalDisconnect := false, retryCount := 0 }
    s1.doConnect oc

/-- The retry timer fires (only possible while armed): the timer slot is
nulled; under intentional disconnect or disposal the callback returns;
otherwise it awaits one `doConnect()`.  Success fires `onReconnect`; a
rejection calls `scheduleReconnect()` again; the hung open-failure case
reaches `scheduleReconnect()` through the socket close event instead. -/
def CDPClient.retryFire (s : CDPClient) (oc : ConnStep) : CDPClient × List Nat :=
  if !s.retryTimer then (s, [])
  else
    let s1 := { s with retryTimer := false }
    if s1.intentionalDisconnect || s1.isDisposed then (s1, [])
    else
      match oc with
      | .success =>
        ({ s1 with ws := some true, retryCount := 0,
                   firedOnReconnect := s1.firedOnReconnect + 1 }, [])
      | .discoveryFail => (s1.scheduleReconnect, [])
      | .openFail =>
        let (s2, settled, _) := s1.doConnect .openFail
        (s2, settled)

/-! ### Event traces of one `CDPClient` instance

Every entry point into the client — public method calls and the
asynchronous callbacks of its timers and socket — is an event.  `run`
folds a trace of events over a state, accumulating the correlation ids
assigned by `send` and the ids whose pending calls were settled
(resolved or rejected). -/

/-- One event hitting a `CDPClient` instance. -/
inductive CEv
  | connect (port : Nat) (oc : ConnStep)
  | send (methodOk sendOk : Bool)
  | response (id : Nat)
  | timeout (id : Nat)
  | wsClose
  | retryFire (oc : ConnStep)
  | disconnect
  | dispose
  deriving Repr, DecidableEq

/-- One step: the next state together with the ids assigned and the ids
settled by this event. -/
def CDPClient.step (s : CDPClient) : CEv → CDPClient × List Nat × List Nat
  | .connect p oc => ((s.connect p oc).1, [], (s.connect p oc).2.1)
  | .send m ok => ((s.send m ok).1, (s.send m ok).2.1, (s.send m ok).2.2.1)
  | .response id => ((s.handleMessage id).1, [], (s.handleMessage id).2)
  | .timeout id => ((s.timeoutFire id).1, [], (s.timeoutFire id).2)
  | .wsClose => ((s.wsClose).1, [], (s.wsClose).2)
  | .retryFire oc => ((s.retryFire oc).1, [], (s.retryFire oc).2)
  | .disconnect => ((s.disconnect).1, [], (s.disconnect).2)
  | .dispose => ((s.dispose).1, [], (s.dispose).2)

/-- Result of running a trace: final state, ids assigned, ids settled. -/
structure RunRes where
  state : CDPClient
  assigned : List Nat
  settled : List Nat
  deriving Repr, DecidableEq

/-- Run a trace of events over a client state. -/
def CDPClient.run (s : CDPClient) : List CEv → RunRes
  | [] => ⟨s, [], []⟩
  | e :: es =>
    ⟨(((s.step e).1).run es).state,
     (s.step e).2.1 ++ (((s.step e).1).run es).assigned,
     (s.step e).2.2 ++ (((s.step e).1).run es).settled⟩

/-! ### The injected action script

The poll tick of the CDP-based `AutoAcceptor` sends a `Runtime.evaluate`
call whose expression walks the DOM for clickable candidates and either
clicks one or refuses.  The DOM is the environment: we model it as the
ordered list of candidate elements `findAllButtons(document.body)`
returns, plus the visible text of the page. -/

/-- A clickable candidate as the script sees it: `label` is
`(textContent || innerText).trim().toLowerCase()`; `visible` is
`rect.width > 0 && rect.height > 0` for its bounding rectangle. -/
structure BtnEl where
  label : String
  visible : Bool
  deriving Repr, DecidableEq

/-- The target texts constant of the script: accept, run, retry, apply. -/
def targetTexts : List String := ["accept", "run", "retry", "apply"]

/-- Does `needle` occur as a contiguous run inside `hay`? -/
def listContainsSub : List Char → List Char → Bool
  | [], needle => needle.isEmpty
  | h :: t, needle => needle.isPrefixOf (h :: t) || listContainsSub t needle

/-- JavaScript `hay.includes(needle)`: substring containment. -/
def strIncludes (hay needle : String) : Bool :=
  listContainsSub hay.toList needle.toList

/-- The action script body: scan the candidates in document order; on the
first visible candidate whose label is a target text, either refuse
(`run` label and some blocked command occurs in the page text — the
first such command in list order) or click it and report the label.
Returns the string result of the script together with the labels actually
clicked. -/
def actionScript (blockedCmds : List String) (pageText : String) :
    List BtnEl → String × List String
  | [] => ("none", [])
  | b :: rest =>
    if targetTexts.contains b.label && b.visible then
      if b.label = "run" then
        match blockedCmds.find? (fun c => strIncludes pageText c) with
        | some c => ("blocked: " ++ c, [])
        | none => ("clicked_" ++ b.label, [b.label])
      else ("clicked_" ++ b.label, [b.label])
    else actionScript blockedCmds pageText rest

/-! ### The Action Supervisor (`AutoAcceptor` over a `CDPClient`)

State of the CDP-based `AutoAcceptor` with the instrumentation the spec
suggests for the non-reentrancy guard: `activeTicks` counts poll bodies
that have passed the guards and not yet run their `finally` clause.  A
tick is two events: `tickFire` runs the guards and, when they pass, sets
`isPollInProgress` and issues the send; `sendSettle` is the awaited send
promise settling (fulfilled or rejected — the `catch`/`finally` path),
which clears the guard.  Stray events (a settle with no tick in flight,
a tick while none can run) leave the state unchanged, so proving over
all traces covers every real interleaving. -/

structure AutoAcceptor where
  cdp : CDPClient
  isRunning : Bool
  isDisposed : Bool
  isPollInProgress : Bool
  activeTicks : Nat
  deriving Repr, DecidableEq

/-- A freshly constructed CDP-based `AutoAcceptor`. -/
def AutoAcceptor.mk0 : AutoAcceptor :=
  { cdp := CDPClient.mk0 DEFAULT_OPTIONS
    isRunning := false
    isDisposed := false
    isPollInProgress := false
    activeTicks := 0 }

/-- The guard prefix of `poll()`: return immediately when a poll is in
progress, the acceptor is not running or disposed, or the client socket
is not open; otherwise set `isPollInProgress` and proceed to build the
script and issue the send.  The returned flag reports whether a send was
issued. -/
def AutoAcceptor.pollBegin (a : AutoAcceptor) : AutoAcceptor × Bool :=
  if a.isPollInProgress || !a.isRunning || a.isDisposed then (a, false)
  else if !a.cdp.isConnected then (a, false)
  else ({ a with isPollInProgress := true, activeTicks := a.activeTicks + 1 }, true)

/-- The `finally` clause of `poll()`: clear the guard. -/
def AutoAcceptor.pollFinally (a : AutoAcceptor) : AutoAcceptor :=
  { a with isPollInProgress := false, activeTicks := a.activeTicks - 1 }

/-- One event hitting the supervisor.  `sendSettle true` is the awaited
`cdp.send` fulfilling; `sendSettle false` is it rejecting, or the send
call throwing synchronously (e.g. `NotConnected`) — either way the tick
ends through `catch`/`finally`.  `cdpEv` is an asynchronous client event
(socket close, retry timer, response frame, per-call timeout), with the
`onReconnectFailed` wiring that forces `isRunning := false`. -/
inductive SEv
  | tickFire
  | sendSettle (ok : Bool)
  | startOk
  | startFail
  | stopEv
  | disposeEv
  | cdpEv (e : CEv)
  deriving Repr, DecidableEq

/-- One supervisor step; the flag reports whether this event issued a
send. -/
def AutoAcceptor.step (a : AutoAcceptor) : SEv → AutoAcceptor × Bool
  | .tickFire => a.pollBegin
  | .sendSettle _ =>
    if a.activeTicks = 0 then (a, false) else (a.pollFinally, false)
  | .startOk =>
    if a.isDisposed || a.isRunning then (a, false)
    else ({ a with cdp := (a.cdp.connect 9222 ConnStep.success).1, isRunning := true }, false)
  | .startFail =>
    if a.isDisposed || a.isRunning then (a, false)
    else ({ a with cdp := (a.cdp.connect 9222 ConnStep.discoveryFail).1, isRunning := false }, false)
  | .stopEv =>
    if a.isDisposed then (a, false)
    else ({ a with cdp := (a.cdp.disconnect).1, isRunning := false }, false)
  | .disposeEv =>
    if a.isDisposed then (a, false)
    else ({ a with cdp := (a.cdp.disconnect).1, isDisposed := true }, false)
  | .cdpEv e =>
    if a.cdp.firedOnReconnectFailed < ((a.cdp.step e).1).firedOnReconnectFailed
        && !a.isDisposed then
      ({ a with cdp := (a.cdp.step e).1, isRunning := false }, false)
    else ({ a with cdp := (a.cdp.step e).1 }, false)

/-- Run a trace of supervisor events. -/
def AutoAcceptor.run (a : AutoAcceptor) : List SEv → AutoAcceptor
  | [] => a
  | e :: es => ((a.step e).1).run es

/-- Structural invariant of the pending-call table: the live correlation
ids are pairwise distinct and all below the id counter. -/
def Inv (s : CDPClient) : Prop :=
  s.callbacks.Nodup ∧ ∀ id ∈ s.callbacks, id < s.messageId

/-- Invariant tying the `isPollInProgress` guard to the instrumentation
counter: at most one poll body is between its guard and its `finally`,
and the guard is set exactly while one is. -/
def TickInv (a : AutoAcceptor) : Prop :=
  a.activeTicks ≤ 1 ∧ (a.isPollInProgress = true ↔ a.activeTicks = 1)

/-- What one client event guarantees, relative to the pre-state `s`:
the table invariant still holds; the id counter never decreases; the
event assigns either no id or exactly the current counter value (which
then increments); and the multiset of ids is conserved — ids assigned
now plus ids that were pending equal ids settled now plus ids still
pending. -/
def StepOK (s : CDPClient) (t : CDPClient × List Nat × List Nat) : Prop :=
  Inv t.1
  ∧ s.messageId ≤ t.1.messageId
  ∧ (t.2.1 = [] ∨ (t.2.1 = [s.messageId] ∧ t.1.messageId = s.messageId + 1))
  ∧ (t.2.1 ++ s.callbacks).Perm (t.2.2 ++ t.1.callbacks)

/-! ## Theorems -/

/-- A client state with an open socket, two live pending calls and an
armed retry timer, used to evaluate `dispose()`. -/
def busyClient : CDPClient :=
  { CDPClient.mk0 DEFAULT_OPTIONS with
      callbacks := [1, 2], retryTimer := true, ws := some true, messageId := 3 }

/-- C1: refuted by the code.  `dispose()` sets `isDisposed := true` and
only then calls `disconnect()`, whose first line is
`if (this.isDisposed) return`, so the cleanup is skipped entirely: on a
client with an open socket, two pending calls and an armed retry timer,
`dispose()` settles nothing, leaves both pending entries live, leaves the
retry timer armed and the socket open — it only flips the disposed flag.
The spec (and the doc comment of the method and its explicit
`this.disconnect()` call) require the full disconnect cleanup first. -/
theorem dispose_leaves_pending_calls :
    busyClient.dispose = ({ busyClient with isDisposed := true }, [])
    ∧ (busyClient.dispose).1.callbacks = [1, 2]
    ∧ (busyClient.dispose).1.retryTimer = true
    ∧ (busyClient.dispose).1.ws = some true := by
  refine ⟨?_, by decide, by decide, by decide⟩
  decide

/-- C2, counterexample: with blocked list `["rm -rf /"]`, a page whose
visible text contains `rm -rf /`, and a visible `accept` candidate
preceding the visible `run` candidate in document order, the script
clicks `accept` and never reaches the blocked-substring check: the
outcome is `clicked_accept`, not `blocked: rm -rf /`. -/
theorem actionScript_clicks_despite_block :
    strIncludes "Agent wants to run: rm -rf / now" "rm -rf /" = true
    ∧ (BtnEl.mk "run" true) ∈ [BtnEl.mk "accept" true, BtnEl.mk "run" true]
    ∧ actionScript ["rm -rf /"] "Agent wants to run: rm -rf / now"
        [BtnEl.mk "accept" true, BtnEl.mk "run" true]
      = ("clicked_accept", ["accept"]) := by
  refine ⟨by decide, by decide, ?_⟩
  decide

/-- C7: refuted by the code.  On an initial `connect()` where discovery
succeeds but the socket fails to open, the `error` handler only logs
(despite the adjacent comment claiming it rejects the initial-connect
promise), so the returned promise never settles; the socket `close`
event then runs `scheduleReconnect()`, arming a retry timer.  The claim
(and the comment) say the promise rejects and no retry is scheduled.
The discovery-failure half of the claim does hold: the promise rejects
and no retry timer is armed. -/
theorem initial_connect_openFail_hangs_and_retries :
    ((CDPClient.mk0 DEFAULT_OPTIONS).connect 9222 .openFail).2.2 = ConnRes.hung
    ∧ ((CDPClient.mk0 DEFAULT_OPTIONS).connect 9222 .openFail).1.retryTimer = true
    ∧ ((CDPClient.mk0 DEFAULT_OPTIONS).connect 9222 .discoveryFail).2.2 = ConnRes.rejected
    ∧ ((CDPClient.mk0 DEFAULT_OPTIONS).connect 9222 .discoveryFail).1.retryTimer = false := by
  refine ⟨by decide, by decide, by decide, by decide⟩

/-- C9: `disconnect()` is idempotent.  A second call right after a first
is a no-op: it settles no pending call (so nothing can throw), and the
resulting state — intentional-disconnect flag, retry timer, pending-call
table, socket handle, everything — is exactly what the first call left. -/
theorem disconnect_idempotent (s : CDPClient) :
    ((s.disconnect).1).disconnect = ((s.disconnect).1, []) := by
  simp only [CDPClient.disconnect, CDPClient.rejectAllPending]
  by_cases h : s.isDisposed <;> simp [h]

/-- C10: a poll tick firing while the acceptor is disposed, not running,
or while the client socket is not open returns at the guard: the
supervisor state is unchanged (no `isPollInProgress` set, no
instrumentation counter bump) and no send is issued, so such a tick can
neither raise `NotConnected` nor mutate anything. -/
theorem poll_guard_early_return (a : AutoAcceptor)
    (h : a.isDisposed = true ∨ a.isRunning = false ∨ a.cdp.isConnected = false) :
    a.step SEv.tickFire = (a, false) := by
  simp only [AutoAcceptor.step, AutoAcceptor.pollBegin]
  rcases h with h | h | h <;> simp [h]

/-- Witness for C10 at a concrete state: the fresh acceptor is not
running and its client socket is closed; a tick leaves it unchanged and
issues no send. -/
theorem poll_guard_early_return_witness :
    AutoAcceptor.mk0.step SEv.tickFire = (AutoAcceptor.mk0, false) :=
  poll_guard_early_return AutoAcceptor.mk0 (Or.inr (Or.inl (by decide)))

/-- When some blocked command occurs in the page text, the script never
clicks a `run`-labeled candidate, wherever it sits in document order. -/
lemma actionScript_no_run_click (blocked : List String) (page : String) (c : String)
    (h : blocked.find? (fun x => strIncludes page x) = some c) :
    ∀ btns : List BtnEl, "run" ∉ (actionScript blocked page btns).2 := by
  intro btns
  induction btns with
  | nil => simp [actionScript]
  | cons b rest ih =>
    simp only [actionScript]
    by_cases hg : (targetTexts.contains b.label && b.visible) = true
    · rw [if_pos hg]
      by_cases hr : b.label = "run"
      · rw [if_pos hr, h]
        simp
      · rw [if_neg hr]
        simp [Ne.symm hr]
    · rw [if_neg hg]
      exact ih

/-- When the first visible target-labeled candidate is `run`-labeled and
some blocked command occurs in the page text, the script refuses with the
first matching command and clicks nothing. -/
lemma actionScript_first_run_blocked (blocked : List String) (page : String) (c : String)
    (h : blocked.find? (fun x => strIncludes page x) = some c) :
    ∀ (pre rest : List BtnEl) (b : BtnEl),
      (∀ x ∈ pre, (targetTexts.contains x.label && x.visible) = false) →
      b.label = "run" → b.visible = true →
      actionScript blocked page (pre ++ b :: rest) = ("blocked: " ++ c, []) := by
  intro pre
  induction pre with
  | nil =>
    intro rest b hpre hlab hvis
    simp [actionScript, hlab, hvis, h]
    intro hmem
    exact absurd (by decide : "run" ∈ targetTexts) hmem
  | cons x pre ih =>
    intro rest b hpre hlab hvis
    have hx := hpre x (List.mem_cons_self x pre)
    simp only [List.cons_append, actionScript, hx]
    simp only [Bool.false_eq_true, if_false]
    exact ih rest b (fun y hy => hpre y (List.mem_cons_of_mem x hy)) hlab hvis

/-- C2 (amended): a block pre-empts clicking the run candidate itself,
not every click.  When the page text contains a blocked command
(witnessed by `find?` returning its first match `c`): (i) the script
never clicks a `run`-labeled candidate; and (ii) when the `run`-labeled
candidate is the first visible target-labeled candidate in document
order, the outcome of the tick is `blocked: c` and nothing at all is clicked.
A visible non-run candidate occurring earlier in document order is still
clicked (see the counterexample). -/
theorem actionScript_block_preempts_run_click
    (blocked : List String) (page : String) (btns : List BtnEl) (c : String)
    (h : blocked.find? (fun x => strIncludes page x) = some c) :
    "run" ∉ (actionScript blocked page btns).2
    ∧ (∀ (pre rest : List BtnEl) (b : BtnEl),
        btns = pre ++ b :: rest →
        (∀ x ∈ pre, (targetTexts.contains x.label && x.visible) = false) →
        b.label = "run" → b.visible = true →
        actionScript blocked page btns = ("blocked: " ++ c, [])) := by
  refine ⟨actionScript_no_run_click blocked page c h btns, ?_⟩
  intro pre rest b hb hpre hlab hvis
  rw [hb]
  exact actionScript_first_run_blocked blocked page c h pre rest b hpre hlab hvis

/-- Witness for C2 (amended) on the scenario given in the spec: blocked list
`["rm -rf /"]`, the page text contains `rm -rf /`, and the only
candidate is a visible `run` button — the outcome is
`blocked: rm -rf /` with no click. -/
theorem actionScript_block_preempts_run_click_witness :
    "run" ∉ (actionScript ["rm -rf /"] "run: rm -rf / ?" [BtnEl.mk "run" true]).2
    ∧ actionScript ["rm -rf /"] "run: rm -rf / ?" [BtnEl.mk "run" true]
        = ("blocked: " ++ "rm -rf /", []) := by
  have h := actionScript_block_preempts_run_click ["rm -rf /"] "run: rm -rf / ?"
    [BtnEl.mk "run" true] "rm -rf /" (by decide)
  exact ⟨h.1, h.2 [] [] (BtnEl.mk "run" true) rfl (by simp) rfl rfl⟩

/-- Every supervisor event preserves the non-reentrancy invariant. -/
lemma tickInv_step (a : AutoAcceptor) (e : SEv) (h : TickInv a) : TickInv (a.step e).1 := by
  obtain ⟨h1, h2⟩ := h
  cases e with
  | tickFire =>
    simp only [AutoAcceptor.step, AutoAcceptor.pollBegin]
    split_ifs with hg hc
    · exact ⟨h1, h2⟩
    · exact ⟨h1, h2⟩
    · simp only [Bool.or_eq_true, Bool.not_eq_true, not_or] at hg
      have hip : a.isPollInProgress = false := by
        simpa using hg.1.1
      have hz : a.activeTicks = 0 := by
        have hne : a.activeTicks ≠ 1 := fun hh => by
          have := h2.mpr hh
          rw [hip] at this
          exact Bool.false_ne_true this
        omega
      exact ⟨by simp [hz], by simp [hz]⟩
  | sendSettle ok =>
    simp only [AutoAcceptor.step]
    split_ifs with hz
    · exact ⟨h1, h2⟩
    · have hone : a.activeTicks = 1 := by omega
      refine ⟨by simp [AutoAcceptor.pollFinally, hone], ?_⟩
      simp [AutoAcceptor.pollFinally, hone]
  | startOk =>
    simp only [AutoAcceptor.step]
    split_ifs
    · exact ⟨h1, h2⟩
    · exact ⟨h1, h2⟩
  | startFail =>
    simp only [AutoAcceptor.step]
    split_ifs
    · exact ⟨h1, h2⟩
    · exact ⟨h1, h2⟩
  | stopEv =>
    simp only [AutoAcceptor.step]
    split_ifs
    · exact ⟨h1, h2⟩
    · exact ⟨h1, h2⟩
  | disposeEv =>
    simp only [AutoAcceptor.step]
    split_ifs
    · exact ⟨h1, h2⟩
    · exact ⟨h1, h2⟩
  | cdpEv e =>
    simp only [AutoAcceptor.step]
    split_ifs
    · exact ⟨h1, h2⟩
    · exact ⟨h1, h2⟩

/-- The invariant holds along every trace. -/
lemma tickInv_run (a : AutoAcceptor) (es : List SEv) (h : TickInv a) : TickInv (a.run es) := by
  induction es generalizing a with
  | nil => exact h
  | cons e es ih => exact ih _ (tickInv_step a e h)

/-- C8: poll ticks never overlap.  Along every event trace from a fresh
acceptor the instrumented count of poll bodies inside the guarded region
never exceeds 1; a tick firing while one is in flight is skipped
entirely, changing nothing and issuing no send; and the settling of the
awaited send — fulfilled or rejected alike — always runs the
`finally`-equivalent, clearing `isPollInProgress` and retiring the
active tick. -/
theorem poll_ticks_never_overlap (es : List SEv) :
    (AutoAcceptor.mk0.run es).activeTicks ≤ 1
    ∧ (∀ a : AutoAcceptor, a.isPollInProgress = true → a.step SEv.tickFire = (a, false))
    ∧ (∀ (a : AutoAcceptor) (ok : Bool), a.activeTicks ≠ 0 →
        ((a.step (SEv.sendSettle ok)).1.isPollInProgress = false
          ∧ (a.step (SEv.sendSettle ok)).1.activeTicks = a.activeTicks - 1)) := by
  refine ⟨(tickInv_run AutoAcceptor.mk0 es ⟨by decide, by decide⟩).1, ?_, ?_⟩
  · intro a hip
    simp [AutoAcceptor.step, AutoAcceptor.pollBegin, hip]
  · intro a ok hz
    simp [AutoAcceptor.step, AutoAcceptor.pollFinally, hz]

/-- Witness for C8: a concrete trace (start, two ticks racing, the send
settling by rejection), the skip of a tick at a concrete in-flight
state, and the clearing of the guard there when the send rejects. -/
theorem poll_ticks_never_overlap_witness :
    (AutoAcceptor.mk0.run [SEv.startOk, SEv.tickFire, SEv.tickFire,
        SEv.sendSettle false]).activeTicks ≤ 1
    ∧ ({ AutoAcceptor.mk0 with isPollInProgress := true } : AutoAcceptor).step SEv.tickFire
        = ({ AutoAcceptor.mk0 with isPollInProgress := true }, false)
    ∧ ((({ AutoAcceptor.mk0 with isPollInProgress := true, activeTicks := 1 } :
          AutoAcceptor).step (SEv.sendSettle false)).1.isPollInProgress = false
        ∧ (({ AutoAcceptor.mk0 with isPollInProgress := true, activeTicks := 1 } :
          AutoAcceptor).step (SEv.sendSettle false)).1.activeTicks = 0) := by
  have h := poll_ticks_never_overlap [SEv.startOk, SEv.tickFire, SEv.tickFire,
    SEv.sendSettle false]
  exact ⟨h.1, h.2.1 _ rfl, h.2.2 _ false (by decide)⟩

/-- Running a concatenated trace is running the pieces in order. -/
lemma run_append (s : CDPClient) (es1 es2 : List CEv) :
    s.run (es1 ++ es2) =
      ⟨(((s.run es1).state).run es2).state,
       (s.run es1).assigned ++ (((s.run es1).state).run es2).assigned,
       (s.run es1).settled ++ (((s.run es1).state).run es2).settled⟩ := by
  induction es1 generalizing s with
  | nil => rfl
  | cons e es1 ih =>
    simp only [List.cons_append, CDPClient.run, List.append_eq, ih, List.append_assoc]

/-- A retry-timer callback cannot run while no timer is armed. -/
lemma retryFire_noTimer (s : CDPClient) (oc : ConnStep) (h : s.retryTimer = false) :
    s.retryFire oc = (s, []) := by
  simp [CDPClient.retryFire, h]

/-- With no armed retry timer, any number of would-be retry events leave
the client untouched. -/
lemma run_fails_noTimer (s : CDPClient) (k : Nat) (h : s.retryTimer = false) :
    s.run (List.replicate k (CEv.retryFire ConnStep.discoveryFail)) = ⟨s, [], []⟩ := by
  induction k with
  | zero => rfl
  | succ n ih =>
    rw [List.replicate_succ]
    simp only [CDPClient.run, CDPClient.step, retryFire_noTimer s _ h, ih,
      List.nil_append]

/-- One armed, non-exhausted, failing retry attempt: the timer is nulled
and re-armed, the attempt counter increments, and the backoff delay
`min(initialRetryDelay * 2 ^ retryCount, maxRetryDelay)` is scheduled. -/
lemma retryFire_step_armed (s : CDPClient)
    (hI : s.intentionalDisconnect = false) (hD : s.isDisposed = false)
    (hT : s.retryTimer = true) (hc : s.retryCount < s.options.maxRetries) :
    s.retryFire ConnStep.discoveryFail =
      ({ s with retryTimer := true, retryCount := s.retryCount + 1,
                delays := s.delays ++
                  [min (s.options.initialRetryDelay * 2 ^ s.retryCount)
                    s.options.maxRetryDelay] }, []) := by
  simp [CDPClient.retryFire, CDPClient.scheduleReconnect, hI, hD, hT, Nat.not_le.mpr hc]

/-- One armed retry attempt at an exhausted counter: the timer is nulled,
nothing new is scheduled, and `onReconnectFailed` fires once. -/
lemma retryFire_step_exhausted (s : CDPClient)
    (hI : s.intentionalDisconnect = false) (hD : s.isDisposed = false)
    (hT : s.retryTimer = true) (hc : s.options.maxRetries ≤ s.retryCount) :
    s.retryFire ConnStep.discoveryFail =
      ({ s with retryTimer := false,
                firedOnReconnectFailed := s.firedOnReconnectFailed + 1 }, []) := by
  simp [CDPClient.retryFire, CDPClient.scheduleReconnect, hI, hD, hT, hc]

/-- Iterating `k` armed failing retry attempts (while `k` keeps the
counter within `maxRetries`) advances the counter by `k` and schedules
exactly the delays `min(initialRetryDelay * 2 ^ (retryCount + j), maxRetryDelay)`
for `j = 0 .. k-1`, in order. -/
lemma run_fails_armed (k : Nat) : ∀ (s : CDPClient),
    s.intentionalDisconnect = false → s.isDisposed = false →
    s.retryTimer = true → s.retryCount + k ≤ s.options.maxRetries →
    (s.run (List.replicate k (CEv.retryFire ConnStep.discoveryFail))).state =
      { s with retryCount := s.retryCount + k,
               retryTimer := true,
               delays := s.delays ++ (List.range k).map
                 (fun j => min (s.options.initialRetryDelay * 2 ^ (s.retryCount + j))
                   s.options.maxRetryDelay) } := by
  induction k with
  | zero =>
    intro s hI hD hT hk
    obtain ⟨o, ws, mId, cbs, p, rc, rt, intd, disp, f1, f2, f3, dl⟩ := s
    simp at hT
    subst hT
    simp [CDPClient.run]
  | succ k ih =>
    intro s hI hD hT hk
    rw [List.replicate_succ]
    have hc : s.retryCount < s.options.maxRetries := by omega
    simp only [CDPClient.run, CDPClient.step, retryFire_step_armed s hI hD hT hc]
    rw [ih _ (by simpa using hI) (by simpa using hD) (by simp) (by simp; omega)]
    obtain ⟨o, ws, mId, cbs, p, rc, rt, intd, disp, f1, f2, f3, dl⟩ := s
    simp only [CDPClient.mk.injEq, List.range_succ_eq_map, List.map_cons, List.map_map,
      List.append_assoc, List.singleton_append, List.cons_append, List.nil_append]
    refine ⟨trivial, trivial, trivial, trivial, trivial, by omega, trivial, trivial,
      trivial, trivial, trivial, trivial, ?_⟩
    congr 1
    congr 1
    all_goals try norm_num
    all_goals
      intro j hj
      have hj1 : rc + 1 + j = rc + (j + 1) := by omega
      rw [hj1]

/-- An unexpected socket closure on a connected, non-exhausted client:
the socket is discarded, every pending call rejects, `onDisconnect`
fires, and the first backoff attempt is scheduled. -/
lemma wsClose_from_connected (s : CDPClient)
    (hI : s.intentionalDisconnect = false) (hD : s.isDisposed = false)
    (hW : s.ws = some true) (hc : s.retryCount < s.options.maxRetries) :
    s.wsClose =
      ({ s with ws := none, callbacks := [],
                firedOnDisconnect := s.firedOnDisconnect + 1,
                retryCount := s.retryCount + 1, retryTimer := true,
                delays := s.delays ++
                  [min (s.options.initialRetryDelay * 2 ^ s.retryCount)
                    s.options.maxRetryDelay] }, s.callbacks) := by
  simp [CDPClient.wsClose, hW, CDPClient.rejectAllPending, hI, hD,
    CDPClient.scheduleReconnect, Nat.not_le.mpr hc]

/-- C5: exponential backoff.  From a connected client with a fresh retry
policy, an unexpected closure followed by `k` failing retry attempts
(`k` within `maxRetries`) schedules exactly the delays
`min(initialRetryDelay * 2 ^ n, maxRetryDelay)` for attempts
`n = 0 .. k`, in order; in particular, with the default
`initialRetryDelay = 1000` and `maxRetryDelay = 30000`, attempts 0..5
are scheduled with delays 1000, 2000, 4000, 8000, 16000, 30000. -/
theorem backoff_delay_formula (s : CDPClient) (k : Nat)
    (hI : s.intentionalDisconnect = false) (hD : s.isDisposed = false)
    (hC : s.retryCount = 0) (hW : s.ws = some true)
    (hk : k < s.options.maxRetries) :
    (s.run (CEv.wsClose ::
        List.replicate k (CEv.retryFire ConnStep.discoveryFail))).state.delays =
      s.delays ++ (List.range (k + 1)).map
        (fun n => min (s.options.initialRetryDelay * 2 ^ n) s.options.maxRetryDelay)
    ∧ ((CDPClient.mk0 DEFAULT_OPTIONS).run
        ([CEv.connect 9222 ConnStep.success, CEv.wsClose] ++
          List.replicate 5 (CEv.retryFire ConnStep.discoveryFail))).state.delays
      = [1000, 2000, 4000, 8000, 16000, 30000] := by
  constructor
  · simp only [CDPClient.run, CDPClient.step,
      wsClose_from_connected s hI hD hW (by omega)]
    rw [run_fails_armed k _ (by simpa using hI) (by simpa using hD) (by simp)
      (by simp [hC]; omega)]
    simp only [hC, List.range_succ_eq_map, List.map_cons, List.map_map,
      List.append_assoc, List.singleton_append, pow_zero]
    congr 1
    congr 1
    all_goals try norm_num
    all_goals
      intro j hj
      have hj1 : 0 + 1 + j = j + 1 := by omega
      rw [hj1]
  · decide

/-- Witness for C5 at a concrete state: the freshly connected default
client; one closure and three failing retries schedule the first four
backoff delays. -/
theorem backoff_delay_formula_witness :
    (((CDPClient.mk0 DEFAULT_OPTIONS).connect 9222 ConnStep.success).1.run
        (CEv.wsClose ::
          List.replicate 3 (CEv.retryFire ConnStep.discoveryFail))).state.delays =
      ((CDPClient.mk0 DEFAULT_OPTIONS).connect 9222 ConnStep.success).1.delays ++
        (List.range 4).map
          (fun n => min (((CDPClient.mk0 DEFAULT_OPTIONS).connect 9222
              ConnStep.success).1.options.initialRetryDelay * 2 ^ n)
            ((CDPClient.mk0 DEFAULT_OPTIONS).connect 9222
              ConnStep.success).1.options.maxRetryDelay) :=
  (backoff_delay_formula ((CDPClient.mk0 DEFAULT_OPTIONS).connect 9222 ConnStep.success).1
    3 (by decide) (by decide) (by decide) (by decide) (by decide)).1

/-- C6: reconnect exhaustion.  From a connected client with a fresh
retry policy, an unexpected closure followed by `maxRetries` consecutive
failing retry attempts fires `onReconnectFailed` exactly once and leaves
no retry timer armed; any further would-be retry events change nothing
(no timer exists to fire), and a subsequent successful `connect()`
resets the attempt counter to 0, re-enabling the policy. -/
theorem reconnect_exhaustion_once (s : CDPClient)
    (hI : s.intentionalDisconnect = false) (hD : s.isDisposed = false)
    (hC : s.retryCount = 0) (hW : s.ws = some true)
    (hM : 1 ≤ s.options.maxRetries) :
    ((s.run (CEv.wsClose :: List.replicate s.options.maxRetries
        (CEv.retryFire ConnStep.discoveryFail))).state.firedOnReconnectFailed
      = s.firedOnReconnectFailed + 1)
    ∧ ((s.run (CEv.wsClose :: List.replicate s.options.maxRetries
        (CEv.retryFire ConnStep.discoveryFail))).state.retryTimer = false)
    ∧ (∀ j : Nat, ((s.run (CEv.wsClose :: List.replicate s.options.maxRetries
        (CEv.retryFire ConnStep.discoveryFail))).state.run
          (List.replicate j (CEv.retryFire ConnStep.discoveryFail))).state
        = (s.run (CEv.wsClose :: List.replicate s.options.maxRetries
            (CEv.retryFire ConnStep.discoveryFail))).state)
    ∧ (((s.run (CEv.wsClose :: List.replicate s.options.maxRetries
        (CEv.retryFire ConnStep.discoveryFail))).state.connect 9222
          ConnStep.success).1.retryCount = 0) := by
  have hm1 : s.options.maxRetries = (s.options.maxRetries - 1) + 1 := by omega
  have key : (s.run (CEv.wsClose :: List.replicate s.options.maxRetries
      (CEv.retryFire ConnStep.discoveryFail))).state =
      { s with ws := none, callbacks := [],
               firedOnDisconnect := s.firedOnDisconnect + 1,
               firedOnReconnectFailed := s.firedOnReconnectFailed + 1,
               retryCount := s.options.maxRetries, retryTimer := false,
               delays := s.delays ++ (List.range s.options.maxRetries).map
                 (fun n => min (s.options.initialRetryDelay * 2 ^ n)
                   s.options.maxRetryDelay) } := by
    simp only [CDPClient.run, CDPClient.step,
      wsClose_from_connected s hI hD hW (by omega)]
    rw [hm1, List.replicate_succ']
    rw [run_append]
    rw [run_fails_armed _ _ (by simpa using hI) (by simpa using hD) (by simp)
      (by simp [hC]; omega)]
    simp only [CDPClient.run, CDPClient.step]
    rw [retryFire_step_exhausted _ (by simpa using hI) (by simpa using hD) (by simp)
      (by simp [hC]; omega)]
    obtain ⟨o, ws, mId, cbs, p, rc, rt, intd, disp, f1, f2, f3, dl⟩ := s
    simp only at hC
    subst hC
    simp only [CDPClient.mk.injEq, List.range_succ_eq_map, List.map_cons, List.map_map,
      List.append_assoc, List.singleton_append, List.cons_append, List.nil_append]
    refine ⟨trivial, trivial, trivial, trivial, trivial, by omega, trivial, trivial,
      trivial, trivial, trivial, trivial, ?_⟩
    congr 1
    congr 1
    all_goals try norm_num
    all_goals
      intro j hj
      have hj1 : 0 + 1 + j = j + 1 := by omega
      rw [hj1]
  refine ⟨by rw [key], by rw [key], ?_, ?_⟩
  · intro j
    rw [key, run_fails_noTimer _ j rfl]
  · rw [key]
    simp [CDPClient.connect, CDPClient.doConnect, hD]

/-- Witness for C6 on the default-configured client right after a
successful connect: exhaustion fires the failure callback exactly once,
arms nothing further, ignores two stray timer events, and a new connect
resets the counter. -/
theorem reconnect_exhaustion_once_witness :
    ((((CDPClient.mk0 DEFAULT_OPTIONS).connect 9222 ConnStep.success).1.run
        (CEv.wsClose :: List.replicate
          ((CDPClient.mk0 DEFAULT_OPTIONS).connect 9222
            ConnStep.success).1.options.maxRetries
          (CEv.retryFire ConnStep.discoveryFail))).state.firedOnReconnectFailed
      = ((CDPClient.mk0 DEFAULT_OPTIONS).connect 9222
          ConnStep.success).1.firedOnReconnectFailed + 1)
    ∧ ((((CDPClient.mk0 DEFAULT_OPTIONS).connect 9222 ConnStep.success).1.run
        (CEv.wsClose :: List.replicate
          ((CDPClient.mk0 DEFAULT_OPTIONS).connect 9222
            ConnStep.success).1.options.maxRetries
          (CEv.retryFire ConnStep.discoveryFail))).state.retryTimer = false) := by
  have h := reconnect_exhaustion_once
    ((CDPClient.mk0 DEFAULT_OPTIONS).connect 9222 ConnStep.success).1
    (by decide) (by decide) (by decide) (by decide) (by decide)
  exact ⟨h.1, h.2.1⟩

/-- `scheduleReconnect` never touches the pending table or the id
counter. -/
lemma scheduleReconnect_fields (s : CDPClient) :
    (s.scheduleReconnect).callbacks = s.callbacks
    ∧ (s.scheduleReconnect).messageId = s.messageId := by
  simp only [CDPClient.scheduleReconnect]
  split_ifs <;> simp

/-- An event that neither assigns nor settles and keeps table and
counter satisfies the step contract. -/
lemma stepOK_noop (s s1 : CDPClient) (h : Inv s)
    (hcb : s1.callbacks = s.callbacks) (hm : s1.messageId = s.messageId) :
    StepOK s (s1, [], []) := by
  refine ⟨⟨by rw [hcb]; exact h.1, by rw [hcb, hm]; exact h.2⟩,
    le_of_eq hm.symm, Or.inl rfl, ?_⟩
  simp only [List.nil_append, hcb]
  exact List.Perm.refl _

/-- An event that settles every pending call and empties the table
satisfies the step contract. -/
lemma stepOK_clear (s s1 : CDPClient) (h : Inv s)
    (hcb : s1.callbacks = []) (hm : s1.messageId = s.messageId) :
    StepOK s (s1, [], s.callbacks) := by
  refine ⟨⟨by rw [hcb]; exact List.nodup_nil, by rw [hcb]; simp⟩,
    le_of_eq hm.symm, Or.inl rfl, ?_⟩
  rw [hcb]
  simp only [List.nil_append, List.append_nil]
  exact List.Perm.refl _

/-- Every client event obeys the step contract: the table invariant is
preserved, the id counter is monotone, at most the current counter value
is assigned, and pending ids are conserved into settled-or-still-pending,
never duplicated, never dropped. -/
lemma inv_step (s : CDPClient) (e : CEv) (h : Inv s) : StepOK s (s.step e) := by
  cases e with
  | connect p oc =>
    simp only [CDPClient.step, CDPClient.connect]
    split_ifs with h1 h2
    · exact stepOK_noop s s h rfl rfl
    · exact stepOK_noop s s h rfl rfl
    · cases oc with
      | success =>
        simp only [CDPClient.doConnect]
        split_ifs
        all_goals exact stepOK_noop s _ h rfl rfl
      | discoveryFail =>
        simp only [CDPClient.doConnect]
        split_ifs
        all_goals exact stepOK_noop s _ h rfl rfl
      | openFail =>
        simp only [CDPClient.doConnect, CDPClient.rejectAllPending]
        split_ifs
        all_goals
          first
          | exact stepOK_noop s _ h rfl rfl
          | (refine stepOK_clear s _ h ?_ ?_
             · exact (scheduleReconnect_fields _).1
             · exact (scheduleReconnect_fields _).2)
          | exact stepOK_clear s _ h rfl rfl
  | send m ok =>
    simp only [CDPClient.step, CDPClient.send]
    split_ifs with h1 h2 h3 h4
    · exact stepOK_noop s s h rfl rfl
    · exact stepOK_noop s s h rfl rfl
    · exact stepOK_noop s s h rfl rfl
    · have hnin : s.messageId ∉ s.callbacks := fun hmem =>
        absurd (h.2 _ hmem) (lt_irrefl _)
      simp only [StepOK, Inv]
      refine ⟨⟨?_, ?_⟩, by omega, Or.inr ⟨trivial, trivial⟩, ?_⟩
      · refine List.Nodup.append h.1 (List.nodup_singleton _) ?_
        intro x hx hy
        rw [List.mem_singleton] at hy
        exact hnin (hy ▸ hx)
      · intro x hx
        rcases List.mem_append.mp hx with hx | hx
        · exact lt_trans (h.2 x hx) (Nat.lt_succ_self _)
        · rw [List.mem_singleton] at hx
          omega
      · simpa using (List.perm_append_singleton s.messageId s.callbacks).symm
    · have hnin : s.messageId ∉ s.callbacks := fun hmem =>
        absurd (h.2 _ hmem) (lt_irrefl _)
      have herase : (s.callbacks ++ [s.messageId]).erase s.messageId = s.callbacks := by
        rw [List.erase_append_right _ hnin]
        simp
      simp only [StepOK, Inv, herase]
      refine ⟨⟨h.1, ?_⟩, by omega, Or.inr ⟨trivial, trivial⟩, ?_⟩
      · intro x hx
        exact lt_trans (h.2 x hx) (Nat.lt_succ_self _)
      · exact List.Perm.refl _
  | response id =>
    simp only [CDPClient.step, CDPClient.handleMessage]
    split_ifs with h1
    · refine ⟨⟨h.1.erase id, ?_⟩, le_refl _, Or.inl rfl, ?_⟩
      · intro x hx
        exact h.2 x (List.mem_of_mem_erase hx)
      · simpa using List.perm_cons_erase h1
    · exact stepOK_noop s s h rfl rfl
  | timeout id =>
    simp only [CDPClient.step, CDPClient.timeoutFire]
    split_ifs with h1
    · refine ⟨⟨h.1.erase id, ?_⟩, le_refl _, Or.inl rfl, ?_⟩
      · intro x hx
        exact h.2 x (List.mem_of_mem_erase hx)
      · simpa using List.perm_cons_erase h1
    · exact stepOK_noop s s h rfl rfl
  | wsClose =>
    simp only [CDPClient.step, CDPClient.wsClose]
    cases hws : s.ws with
    | none =>
      simp only [hws]
      exact stepOK_noop s s h rfl rfl
    | some b =>
      simp only [hws, CDPClient.rejectAllPending]
      split_ifs
      all_goals
        first
        | (refine stepOK_clear s _ h ?_ ?_
           · exact (scheduleReconnect_fields _).1
           · exact (scheduleReconnect_fields _).2)
        | exact stepOK_clear s _ h rfl rfl
  | retryFire oc =>
    simp only [CDPClient.step, CDPClient.retryFire]
    split_ifs with h1 h2
    · exact stepOK_noop s s h rfl rfl
    · exact stepOK_noop s _ h rfl rfl
    · cases oc with
      | success => exact stepOK_noop s _ h rfl rfl
      | discoveryFail =>
        refine stepOK_noop s _ h ?_ ?_
        · exact (scheduleReconnect_fields _).1
        · exact (scheduleReconnect_fields _).2
      | openFail =>
        simp only [CDPClient.doConnect, CDPClient.rejectAllPending]
        split_ifs
        all_goals
          first
          | exact stepOK_noop s _ h rfl rfl
          | (refine stepOK_clear s _ h ?_ ?_
             · exact (scheduleReconnect_fields _).1
             · exact (scheduleReconnect_fields _).2)
          | exact stepOK_clear s _ h rfl rfl
  | disconnect =>
    simp only [CDPClient.step, CDPClient.disconnect, CDPClient.rejectAllPending]
    split_ifs
    all_goals
      first
      | exact stepOK_noop s s h rfl rfl
      | exact stepOK_clear s _ h rfl rfl
  | dispose =>
    simp only [CDPClient.step, CDPClient.dispose, CDPClient.disconnect]
    split_ifs
    all_goals
      first
      | exact stepOK_noop s s h rfl rfl
      | exact stepOK_noop s _ h rfl rfl
      | exact stepOK_clear s _ h rfl rfl

/-- The step contract lifted to whole traces: the invariant holds at the
end; the counter is monotone; every assigned id lies between the initial
and final counter values; the assigned ids are pairwise distinct; and
ids assigned plus ids initially pending are a permutation of ids settled
plus ids finally pending. -/
lemma inv_run (es : List CEv) : ∀ (s : CDPClient), Inv s →
    Inv (s.run es).state
    ∧ s.messageId ≤ (s.run es).state.messageId
    ∧ (∀ id ∈ (s.run es).assigned,
        s.messageId ≤ id ∧ id < (s.run es).state.messageId)
    ∧ (s.run es).assigned.Nodup
    ∧ ((s.run es).assigned ++ s.callbacks).Perm
        ((s.run es).settled ++ (s.run es).state.callbacks) := by
  induction es with
  | nil =>
    intro s h
    refine ⟨h, le_refl _, by simp [CDPClient.run], by simp [CDPClient.run], ?_⟩
    simp only [CDPClient.run, List.nil_append]
    exact List.Perm.refl _
  | cons e es ih =>
    intro s h
    obtain ⟨hi1, hi2, hi3, hi4⟩ := inv_step s e h
    obtain ⟨hr1, hr2, hr3, hr4, hr5⟩ := ih (s.step e).1 hi1
    simp only [CDPClient.run]
    refine ⟨hr1, le_trans hi2 hr2, ?_, ?_, ?_⟩
    · intro id hid
      rcases List.mem_append.mp hid with hid | hid
      · rcases hi3 with h0 | ⟨ha, hm⟩
        · rw [h0] at hid
          exact absurd hid (List.not_mem_nil id)
        · rw [ha, List.mem_singleton] at hid
          subst hid
          exact ⟨le_refl _, by omega⟩
      · obtain ⟨hle, hlt⟩ := hr3 id hid
        exact ⟨le_trans hi2 hle, hlt⟩
    · refine List.Nodup.append ?_ hr4 ?_
      · rcases hi3 with h0 | ⟨ha, _⟩
        · rw [h0]; exact List.nodup_nil
        · rw [ha]; exact List.nodup_singleton _
      · intro x hx hy
        rcases hi3 with h0 | ⟨ha, hm⟩
        · rw [h0] at hx
          exact absurd hx (List.not_mem_nil x)
        · rw [ha, List.mem_singleton] at hx
          subst hx
          obtain ⟨hle, _⟩ := hr3 _ hy
          omega
    · have p1 : (((s.step e).2.1 ++ ((s.step e).1.run es).assigned) ++ s.callbacks).Perm
          (((s.step e).2.1 ++ s.callbacks) ++ ((s.step e).1.run es).assigned) := by
        rw [List.append_assoc, List.append_assoc]
        exact List.Perm.append_left _ List.perm_append_comm
      have p2 : (((s.step e).2.1 ++ s.callbacks) ++ ((s.step e).1.run es).assigned).Perm
          (((s.step e).2.2 ++ (s.step e).1.callbacks) ++ ((s.step e).1.run es).assigned) :=
        hi4.append_right _
      have p3 : (((s.step e).2.2 ++ (s.step e).1.callbacks) ++
            ((s.step e).1.run es).assigned).Perm
          ((s.step e).2.2 ++
            (((s.step e).1.run es).assigned ++ (s.step e).1.callbacks)) := by
        rw [List.append_assoc]
        exact List.Perm.append_left _ List.perm_append_comm
      have p4 : ((s.step e).2.2 ++
            (((s.step e).1.run es).assigned ++ (s.step e).1.callbacks)).Perm
          (((s.step e).2.2 ++ ((s.step e).1.run es).settled) ++
            ((s.step e).1.run es).state.callbacks) := by
        rw [List.append_assoc]
        exact List.Perm.append_left _ hr5
      exact ((p1.trans p2).trans p3).trans p4

/-- Firing the per-call timeout of every still-pending id drains the
table: each remaining call settles (by timeout) and none is left. -/
lemma drain (l : List Nat) : ∀ (s : CDPClient), s.callbacks = l → Inv s →
    (s.run (l.map CEv.timeout)).state.callbacks = []
    ∧ (s.run (l.map CEv.timeout)).settled = l := by
  induction l with
  | nil =>
    intro s hs _
    simp [CDPClient.run, hs]
  | cons a t ih =>
    intro s hs hInv
    simp only [List.map_cons, CDPClient.run, CDPClient.step, CDPClient.timeoutFire]
    rw [if_pos (by rw [hs]; exact List.mem_cons_self a t)]
    have he : s.callbacks.erase a = t := by
      rw [hs]; exact List.erase_cons_head a t
    obtain ⟨ih1, ih2⟩ := ih { s with callbacks := s.callbacks.erase a } he
      ⟨hInv.1.erase a, fun x hx => hInv.2 x (List.mem_of_mem_erase hx)⟩
    refine ⟨ih1, ?_⟩
    rw [ih2]
    rfl

/-- C3: over every event trace of one fresh client instance — sends
(succeeding or failing), response frames, per-call timeouts, socket
closures, reconnect attempts, disconnects, disposals — the correlation
ids assigned are pairwise distinct; no id is ever settled twice; every
assigned id is either settled exactly once or still pending with an
armed timeout timer; and firing the remaining timeouts settles each
leftover exactly once, so in every completed trace each registered
PendingCall settles exactly once. -/
theorem send_ids_unique_and_settled_once (es : List CEv) :
    ((CDPClient.mk0 DEFAULT_OPTIONS).run es).assigned.Nodup
    ∧ (∀ id, ((CDPClient.mk0 DEFAULT_OPTIONS).run es).settled.count id ≤ 1)
    ∧ (∀ id ∈ ((CDPClient.mk0 DEFAULT_OPTIONS).run es).assigned,
        ((CDPClient.mk0 DEFAULT_OPTIONS).run es).settled.count id
          + ((CDPClient.mk0 DEFAULT_OPTIONS).run es).state.callbacks.count id = 1)
    ∧ (((CDPClient.mk0 DEFAULT_OPTIONS).run es).state.run
        (((CDPClient.mk0 DEFAULT_OPTIONS).run es).state.callbacks.map
          CEv.timeout)).state.callbacks = []
    ∧ ∀ id ∈ ((CDPClient.mk0 DEFAULT_OPTIONS).run es).assigned,
        (((CDPClient.mk0 DEFAULT_OPTIONS).run es).settled ++
          (((CDPClient.mk0 DEFAULT_OPTIONS).run es).state.run
            (((CDPClient.mk0 DEFAULT_OPTIONS).run es).state.callbacks.map
              CEv.timeout)).settled).count id = 1 := by
  have h0 : Inv (CDPClient.mk0 DEFAULT_OPTIONS) := ⟨List.nodup_nil, by simp [CDPClient.mk0]⟩
  obtain ⟨hs1, hs2, hs3, hs4, hs5⟩ := inv_run es _ h0
  have hperm : ((CDPClient.mk0 DEFAULT_OPTIONS).run es).assigned.Perm
      (((CDPClient.mk0 DEFAULT_OPTIONS).run es).settled ++
        ((CDPClient.mk0 DEFAULT_OPTIONS).run es).state.callbacks) := by
    simpa [CDPClient.mk0] using hs5
  have hcount : ∀ id, ((CDPClient.mk0 DEFAULT_OPTIONS).run es).settled.count id
      + ((CDPClient.mk0 DEFAULT_OPTIONS).run es).state.callbacks.count id
      = ((CDPClient.mk0 DEFAULT_OPTIONS).run es).assigned.count id := by
    intro id
    rw [hperm.count_eq id, List.count_append]
  obtain ⟨hd1, hd2⟩ := drain ((CDPClient.mk0 DEFAULT_OPTIONS).run es).state.callbacks
    ((CDPClient.mk0 DEFAULT_OPTIONS).run es).state rfl hs1
  refine ⟨hs4, ?_, ?_, hd1, ?_⟩
  · intro id
    have := hcount id
    have hle := List.nodup_iff_count_le_one.mp hs4 id
    omega
  · intro id hid
    have := hcount id
    rw [List.count_eq_one_of_mem hs4 hid] at this
    omega
  · intro id hid
    have h1 := hcount id
    rw [List.count_eq_one_of_mem hs4 hid] at h1
    rw [List.count_append, hd2]
    omega

/-- Witness for C3 on a concrete trace: connect, two sends, one matching
response, then a socket closure bulk-rejecting the rest; applied at the
concrete assigned id 2. -/
theorem send_ids_unique_and_settled_once_witness :
    ((CDPClient.mk0 DEFAULT_OPTIONS).run
      [CEv.connect 9222 ConnStep.success, CEv.send true true, CEv.send true true,
        CEv.response 1, CEv.wsClose]).assigned.Nodup
    ∧ ((CDPClient.mk0 DEFAULT_OPTIONS).run
        [CEv.connect 9222 ConnStep.success, CEv.send true true, CEv.send true true,
          CEv.response 1, CEv.wsClose]).settled.count 2
      + ((CDPClient.mk0 DEFAULT_OPTIONS).run
          [CEv.connect 9222 ConnStep.success, CEv.send true true, CEv.send true true,
            CEv.response 1, CEv.wsClose]).state.callbacks.count 2 = 1 := by
  have h := send_ids_unique_and_settled_once
    [CEv.connect 9222 ConnStep.success, CEv.send true true, CEv.send true true,
      CEv.response 1, CEv.wsClose]
  exact ⟨h.1, h.2.2.1 2 (by decide)⟩

/-- C4, counterexample: the claim says a successful `connect()`
re-initializes the correlation-id counter, so the first `send()` after a
second successful connect would again get the initial id 1.  It gets 2:
`connect()` resets `retryCount` and the intentional-disconnect flag but
never touches `messageId`, so over connect, send (id 1), closure,
connect, send, the assigned ids are `[1, 2]`, not `[1, 1]`. -/
theorem connect_does_not_reset_ids_cex :
    ((CDPClient.mk0 DEFAULT_OPTIONS).run
      [CEv.connect 9222 ConnStep.success, CEv.send true true, CEv.wsClose,
        CEv.connect 9222 ConnStep.success, CEv.send true true]).assigned = [1, 2]
    ∧ (CDPClient.mk0 DEFAULT_OPTIONS).messageId = 1 := by
  refine ⟨?_, by decide⟩
  decide

/-- C4 (amended): correlation ids are never reused within the client
whole lifetime of the instance, across any number of connects and
reconnects — but `connect()` does not re-initialize the id counter: no
`connect(port)` call, whatever its outcome, changes `messageId`, and
along every event trace from a fresh client the assigned ids are
pairwise distinct. -/
theorem ids_never_reused_connect_keeps_counter :
    (∀ (s : CDPClient) (p : Nat) (oc : ConnStep),
      ((s.connect p oc).1).messageId = s.messageId)
    ∧ ∀ es : List CEv, ((CDPClient.mk0 DEFAULT_OPTIONS).run es).assigned.Nodup := by
  constructor
  · intro s p oc
    cases oc <;>
      (simp only [CDPClient.connect, CDPClient.doConnect, CDPClient.rejectAllPending]
       split_ifs
       all_goals first | rfl | exact (scheduleReconnect_fields _).2)
  · intro es
    have h0 : Inv (CDPClient.mk0 DEFAULT_OPTIONS) :=
      ⟨List.nodup_nil, by simp [CDPClient.mk0]⟩
    exact (inv_run es _ h0).2.2.2.1

end AutoAccept
